import Mathlib

/-!
Verification development for the NumpyFuncCache repository
(file src/NumpyFuncCache/numpy_func_cache.py).

The Python code is shallowly embedded as pure Lean functions:

* Strings are modelled as `List Char` (Python `str`), byte strings as
  `List Nat` with every element below 256.
* `hashlib.md5(...).hexdigest()` is implemented in full (padding, the 64
  round operations on 32-bit words realised as `Nat` arithmetic modulo
  2 ^ 32, little-endian digest, lowercase hex rendering).
* The filesystem visible to `_compute_func_cached` is an association
  list from file names to encoded file contents; the numpy array codec
  (`np.save` / `np.load`) is a parameter pair `encode` / `decode`, with
  `decode` fallible, exactly as the spec treats the codec as opaque.
* Python exceptions are an explicit sum type `PyExc`; the
  `except Exception as e: raise RuntimeError(...)` wrapper of the source
  is the constructor `PyExc.runtimeExc` carrying its cause.
-/

namespace NumpyFuncCache

/-! ## MD5 (hashlib.md5(...).hexdigest() over UTF-8 bytes) -/

/-- Reduce a natural number to a 32-bit word. -/
def w32 (n : Nat) : Nat := n % 4294967296

/-- Rotate a 32-bit word left by `s` bits (for `x < 2 ^ 32`, `s ≤ 32`). -/
def rotl32 (x s : Nat) : Nat := w32 (x <<< s) ||| (x >>> (32 - s))

/-- Bitwise complement of a 32-bit word. -/
def not32 (x : Nat) : Nat := x ^^^ 4294967295

/-- The 64 MD5 round constants, `floor(abs(sin(i+1)) * 2^32)`. -/
def md5K : List Nat :=
  [0xd76aa478, 0xe8c7b756, 0x242070db, 0xc1bdceee,
   0xf57c0faf, 0x4787c62a, 0xa8304613, 0xfd469501,
   0x698098d8, 0x8b44f7af, 0xffff5bb1, 0x895cd7be,
   0x6b901122, 0xfd987193, 0xa679438e, 0x49b40821,
   0xf61e2562, 0xc040b340, 0x265e5a51, 0xe9b6c7aa,
   0xd62f105d, 0x02441453, 0xd8a1e681, 0xe7d3fbc8,
   0x21e1cde6, 0xc33707d6, 0xf4d50d87, 0x455a14ed,
   0xa9e3e905, 0xfcefa3f8, 0x676f02d9, 0x8d2a4c8a,
   0xfffa3942, 0x8771f681, 0x6d9d6122, 0xfde5380c,
   0xa4beea44, 0x4bdecfa9, 0xf6bb4b60, 0xbebfbc70,
   0x289b7ec6, 0xeaa127fa, 0xd4ef3085, 0x04881d05,
   0xd9d4d039, 0xe6db99e5, 0x1fa27cf8, 0xc4ac5665,
   0xf4292244, 0x432aff97, 0xab9423a7, 0xfc93a039,
   0x655b59c3, 0x8f0ccc92, 0xffeff47d, 0x85845dd1,
   0x6fa87e4f, 0xfe2ce6e0, 0xa3014314, 0x4e0811a1,
   0xf7537e82, 0xbd3af235, 0x2ad7d2bb, 0xeb86d391]

/-- The 64 MD5 per-round left-rotation amounts. -/
def md5S : List Nat :=
  [7, 12, 17, 22, 7, 12, 17, 22, 7, 12, 17, 22, 7, 12, 17, 22,
   5, 9, 14, 20, 5, 9, 14, 20, 5, 9, 14, 20, 5, 9, 14, 20,
   4, 11, 16, 23, 4, 11, 16, 23, 4, 11, 16, 23, 4, 11, 16, 23,
   6, 10, 15, 21, 6, 10, 15, 21, 6, 10, 15, 21, 6, 10, 15, 21]

/-- The MD5 nonlinear function for round `i` applied to words `b`, `c`, `d`. -/
def md5F (i b c d : Nat) : Nat :=
  if i < 16 then (b &&& c) ||| (not32 b &&& d)
  else if i < 32 then (d &&& b) ||| (not32 d &&& c)
  else if i < 48 then b ^^^ c ^^^ d
  else c ^^^ (b ||| not32 d)

/-- The MD5 message-word index for round `i`. -/
def md5G (i : Nat) : Nat :=
  if i < 16 then i
  else if i < 32 then (5 * i + 1) % 16
  else if i < 48 then (3 * i + 5) % 16
  else (7 * i) % 16

/-- One MD5 round: transforms the state `(a, b, c, d)` using message words `m`. -/
def md5Step (m : List Nat) (st : Nat × Nat × Nat × Nat) (i : Nat) :
    Nat × Nat × Nat × Nat :=
  let a := st.1
  let b := st.2.1
  let c := st.2.2.1
  let d := st.2.2.2
  let f := w32 (md5F i b c d + a + md5K.getD i 0 + m.getD (md5G i) 0)
  (d, w32 (b + rotl32 f (md5S.getD i 0)), b, c)

/-- Group a list of bytes into 32-bit little-endian words. -/
def bytesToWords : List Nat → List Nat
  | b0 :: b1 :: b2 :: b3 :: rest =>
      (b0 + 256 * (b1 + 256 * (b2 + 256 * b3))) :: bytesToWords rest
  | _ => []

/-- Serialise `n` into `k` little-endian bytes (mod `2 ^ (8 * k)`). -/
def leBytes : Nat → Nat → List Nat
  | 0, _ => []
  | k + 1, n => (n % 256) :: leBytes k (n / 256)

/-- Process one 64-byte MD5 block, updating the running state. -/
def md5Block (st : Nat × Nat × Nat × Nat) (block : List Nat) :
    Nat × Nat × Nat × Nat :=
  let m := bytesToWords block
  let r := (List.range 64).foldl (md5Step m) st
  (w32 (st.1 + r.1), w32 (st.2.1 + r.2.1),
   w32 (st.2.2.1 + r.2.2.1), w32 (st.2.2.2 + r.2.2.2))

/-- MD5 padding: append 0x80, zero-fill to 56 mod 64, append the 64-bit
little-endian bit length. -/
def md5Pad (msg : List Nat) : List Nat :=
  let z := (120 - (msg.length + 1) % 64) % 64
  msg ++ 0x80 :: List.replicate z 0 ++ leBytes 8 (8 * msg.length)

/-- Split a byte list into 64-byte chunks; `fuel` bounds the recursion and is
instantiated with a value large enough that it never runs out. -/
def chunks64 : Nat → List Nat → List (List Nat)
  | 0, _ => []
  | _, [] => []
  | fuel + 1, l => l.take 64 :: chunks64 fuel (l.drop 64)

/-- The 16-byte MD5 digest of a byte string. -/
def md5Bytes (msg : List Nat) : List Nat :=
  let padded := md5Pad msg
  let st := (chunks64 (padded.length + 1) padded).foldl md5Block
    (0x67452301, 0xefcdab89, 0x98badcfe, 0x10325476)
  leBytes 4 st.1 ++ leBytes 4 st.2.1 ++ leBytes 4 st.2.2.1 ++ leBytes 4 st.2.2.2

/-- Lowercase hexadecimal digit for `n < 16`. -/
def hexChar (n : Nat) : Char :=
  if n < 10 then Char.ofNat (48 + n) else Char.ofNat (87 + n)

/-- Two lowercase hex digits of a byte. -/
def byteHex (b : Nat) : List Char := [hexChar (b / 16), hexChar (b % 16)]

/-- UTF-8 encoding of one character (Python `str.encode()`). -/
def utf8Bytes (c : Char) : List Nat :=
  let n := c.toNat
  if n < 0x80 then [n]
  else if n < 0x800 then [0xC0 + n / 64, 0x80 + n % 64]
  else if n < 0x10000 then
    [0xE0 + n / 4096, 0x80 + (n / 64) % 64, 0x80 + n % 64]
  else
    [0xF0 + n / 262144, 0x80 + (n / 4096) % 64,
     0x80 + (n / 64) % 64, 0x80 + n % 64]

/-- UTF-8 bytes of a string. -/
def strBytes (s : List Char) : List Nat := (s.map utf8Bytes).flatten

/-- `hashlib.md5(s.encode()).hexdigest()`: the 32-character lowercase hex
MD5 digest of a string. -/
def md5hex (s : List Char) : List Char := ((md5Bytes (strBytes s)).map byteHex).flatten

/-! ## Key derivation (lines 50-56 of numpy_func_cache.py)

A positional argument is modelled by the outcome of `repr` on it: either
the rendered text or a raised exception of type `RErr`. A keyword
argument is a pair of its name and the outcome of `repr` on its value.
Python evaluates `args_str` first (left to right, the first raising
`repr` wins), then `kwargs_str`, then interpolates both into
`input_str = f-string of func_name, args_str, kwargs_str`. -/

/-- Python `",".join` on a list of strings. -/
def joinComma : List (List Char) → List Char
  | [] => []
  | [x] => x
  | x :: xs => x ++ ',' :: joinComma xs

/-- `args_str = ",".join(map(repr, args))`: renders each positional
argument, propagating the first `repr` failure. -/
def renderArgs : List (Except RErr (List Char)) → Except RErr (List (List Char))
  | [] => .ok []
  | x :: xs =>
    match x with
    | .error e => .error e
    | .ok v =>
      match renderArgs xs with
      | .error e => .error e
      | .ok vs => .ok (v :: vs)

/-- One keyword item rendered as in the source: name, equals sign, repr of
the value. -/
def renderKwPair (k v : List Char) : List Char := k ++ '=' :: v

/-- `kwargs_str`: renders each keyword argument as name=repr(value) in
caller-supplied (insertion) order, propagating the first failure. -/
def renderKwArgs :
    List (List Char × Except RErr (List Char)) → Except RErr (List (List Char))
  | [] => .ok []
  | (k, xv) :: xs =>
    match xv with
    | .error e => .error e
    | .ok v =>
      match renderKwArgs xs with
      | .error e => .error e
      | .ok vs => .ok (renderKwPair k v :: vs)

/-- `input_str = f-string combining func_name, args_str and kwargs_str`:
the canonical string hashed to produce the cache key. Note the comma
between the positional and keyword parts is always present. -/
def inputStr (funcName : List Char)
    (argReprs : List (Except RErr (List Char)))
    (kwArgs : List (List Char × Except RErr (List Char))) :
    Except RErr (List Char) :=
  match renderArgs argReprs with
  | .error e => .error e
  | .ok as =>
    match renderKwArgs kwArgs with
    | .error e => .error e
    | .ok ks =>
      .ok (funcName ++ '(' :: (joinComma as ++ ',' :: (joinComma ks ++ [')'])))

/-- The canonical string for calls whose argument renderings all succeed. -/
def inputStrPure (funcName : List Char) (args : List (List Char))
    (kw : List (List Char × List Char)) : List Char :=
  funcName ++ '(' :: (joinComma args ++ ',' ::
    (joinComma (kw.map fun p => renderKwPair p.1 p.2) ++ [')']))

/-- `unique_file_name_hash = hashlib.md5(input_str.encode()).hexdigest()`:
the derived cache key (spec: `derive_key`), or the propagated rendering
failure. -/
def deriveKey (funcName : List Char)
    (argReprs : List (Except RErr (List Char)))
    (kwArgs : List (List Char × Except RErr (List Char))) :
    Except RErr (List Char) :=
  (inputStr funcName argReprs kwArgs).map md5hex

/-- The `.npy` suffix appended to the key to form the cache file name. -/
def npyExt : List Char := ['.', 'n', 'p', 'y']

/-! ## The cache store (`_compute_func_cached`, lines 36-76)

The filesystem under the cache root is an association list from file
names to encoded contents (`np.save` writes a new binding, lookup models
`os.path.exists` plus `np.load`). The wrapped function's invocation on
the given arguments is the thunk `compute`; the codec is the pair
`encode` / `decode`. The result is the Python outcome (value returned or
exception raised) together with the filesystem after the call. -/

/-- Exceptions observable from `_compute_func_cached`:
`reprExc` is an exception raised by `repr` during key derivation (lines
50-52, outside the `try` block, so it propagates unwrapped — the spec's
`KeyDerivationError`); `userExc` is an exception raised by the wrapped
function; `osExc` is a filesystem/codec exception; `runtimeExc` is the
`RuntimeError` raised by the `except Exception` handler at line 74,
carrying the exception it wraps (the spec's `CacheError`). -/
inductive PyExc (RErr UErr IOErr : Type) where
  | reprExc : RErr → PyExc RErr UErr IOErr
  | userExc : UErr → PyExc RErr UErr IOErr
  | osExc : IOErr → PyExc RErr UErr IOErr
  | runtimeExc : PyExc RErr UErr IOErr → PyExc RErr UErr IOErr
deriving DecidableEq

/-- Shallow embedding of `_compute_func_cached`. The wrapped function is
represented by its `__name__` (the only part of its identity used for
keying) and by `compute`, the outcome of invoking it on the call's
arguments; `argReprs` / `kwArgs` carry the `repr` outcomes of those same
arguments. Mirrors the source line by line: derive the key (outside the
`try`), then under the lock either load an existing file or compute and
save, wrapping any exception of that block in a `RuntimeError`. -/
def computeFuncCached (encode : Arr → Bytes) (decode : Bytes → Except IOErr Arr)
    (funcName : List Char) (compute : Except UErr Arr)
    (argReprs : List (Except RErr (List Char)))
    (kwArgs : List (List Char × Except RErr (List Char)))
    (fs : List (List Char × Bytes)) :
    Except (PyExc RErr UErr IOErr) Arr × List (List Char × Bytes) :=
  match inputStr funcName argReprs kwArgs with
  | .error e => (.error (.reprExc e), fs)
  | .ok s =>
    let fileCachePath := md5hex s ++ npyExt
    match fs.lookup fileCachePath with
    | some b =>
      match decode b with
      | .ok result => (.ok result, fs)
      | .error e => (.error (.runtimeExc (.osExc e)), fs)
    | none =>
      match compute with
      | .ok result => (.ok result, (fileCachePath, encode result) :: fs)
      | .error e => (.error (.runtimeExc (.userExc e)), fs)

/-- The part of a comma-join that follows its first element: empty for a
singleton, otherwise a comma and the join of the rest. -/
def commaTail : List (List Char) → List Char
  | [] => []
  | y :: ys => ',' :: joinComma (y :: ys)

/-! ## Cache clearing (`clear_cache`, lines 98-123)

`os.listdir` yields the entries directly under the root; each is either a
regular file (with a flag recording whether `os.remove` on it succeeds —
the environment decides that) or a subdirectory, whose own contents the
loop never touches. The loop deletes each regular file, catching and
printing (not raising) any per-file failure; afterwards, with
`remove_dir=True`, `os.rmdir` removes the root if it is empty and raises
`OSError` otherwise, which the outer handler rewraps as `RuntimeError`. -/

/-- One entry directly under the cache root directory, as seen by
`os.listdir`: a regular file (with the environment-determined outcome of
`os.remove` on it) or a subdirectory with its own contents. -/
inductive Entry where
  | file : List Char → Bool → Entry
  | dir : List Char → List (List Char) → Entry
deriving DecidableEq

/-- Whether an entry is still present after the deletion loop: regular
files whose removal succeeds disappear; files whose removal fails and
all subdirectories remain. -/
def Entry.survives : Entry → Bool
  | .file _ removable => !removable
  | .dir _ _ => true

/-- Whether an entry is a regular file whose deletion fails (the per-file
exceptions caught and printed by the loop). -/
def Entry.removalFails : Entry → Bool
  | .file _ removable => !removable
  | .dir _ _ => false

/-- Whether an entry is a subdirectory. -/
def Entry.isDir : Entry → Bool
  | .file _ _ => false
  | .dir _ _ => true

/-- The exception `clear_cache` can raise: the `RuntimeError` from its
`except Exception` handler, wrapping the `OSError` of `os.rmdir` on a
non-empty directory. -/
inductive ClearExc where
  | rmdirRuntimeError : ClearExc
deriving DecidableEq

/-- Outcome of `clear_cache`: the per-file deletion failures that were
printed (not raised), the exception propagated to the caller if any, and
the final state of the root directory (`none` when it was removed). -/
structure ClearResult where
  reported : List Entry
  raised : Option ClearExc
  root : Option (List Entry)
deriving DecidableEq

/-- Shallow embedding of `clear_cache`: best-effort deletion of every
regular file directly under the root, then optional removal of the root
directory, which fails (as a wrapped `RuntimeError`) when entries remain. -/
def clearCache (entries : List Entry) (removeDir : Bool) : ClearResult :=
  let remaining := entries.filter Entry.survives
  let failed := entries.filter Entry.removalFails
  if removeDir then
    if remaining = [] then ⟨failed, none, none⟩
    else ⟨failed, some .rmdirRuntimeError, some remaining⟩
  else ⟨failed, none, some remaining⟩

/-! ## Sanity check of the MD5 embedding against the published test vector -/

set_option maxRecDepth 4096 in
example : md5hex ("abc".data) = ("900150983cd24fb0d6963f7d28e17f72".data) := by decide

/-! ## Helper lemmas -/

lemma leBytes_length (k n : Nat) : (leBytes k n).length = k := by
  induction k generalizing n with
  | zero => rfl
  | succ k ih => simp [leBytes, ih]

lemma md5Bytes_length (m : List Nat) : (md5Bytes m).length = 16 := by
  simp [md5Bytes, leBytes_length]

lemma md5hex_length (s : List Char) : (md5hex s).length = 32 := by
  have h : ∀ l : List Nat, ((l.map byteHex).flatten).length = 2 * l.length := by
    intro l
    induction l with
    | nil => rfl
    | cons b t ih => simp [byteHex, ih]; omega
  simp [md5hex, h, md5Bytes_length]

lemma joinComma_cons (x : List Char) (l : List (List Char)) :
    joinComma (x :: l) = x ++ commaTail l := by
  cases l with
  | nil => simp [joinComma, commaTail]
  | cons y ys => simp [joinComma, commaTail]

lemma joinComma_kwPair_cons (k v : List Char) (l : List (List Char)) :
    joinComma (renderKwPair k v :: l) = k ++ '=' :: (v ++ commaTail l) := by
  rw [joinComma_cons, renderKwPair]
  simp

/-! ## Claims about the cache-lookup-or-compute-and-store protocol -/

/-- Claim C1. For every function f and argument tuple, assuming the array
codec round-trips on the computed value, the first call of the cached
function computes f and persists the encoded result under the derived
key, and every subsequent call with the same function and arguments
returns a value equal to the computed one without invoking f again: the
second call's result is the same for an arbitrary compute thunk, so
compute is never invoked on a hit. -/
theorem claim_C1_hit_equivalence
    {Arr Bytes RErr UErr IOErr : Type}
    (encode : Arr → Bytes) (decode : Bytes → Except IOErr Arr)
    (funcName : List Char) (v : Arr)
    (argReprs : List (Except RErr (List Char)))
    (kwArgs : List (List Char × Except RErr (List Char)))
    (fs : List (List Char × Bytes)) (s : List Char)
    (compute2 : Except UErr Arr)
    (hs : inputStr funcName argReprs kwArgs = .ok s)
    (hrt : decode (encode v) = .ok v)
    (hmiss : fs.lookup (md5hex s ++ npyExt) = none) :
    computeFuncCached encode decode funcName (.ok v : Except UErr Arr) argReprs kwArgs fs
      = (.ok v, (md5hex s ++ npyExt, encode v) :: fs)
    ∧ computeFuncCached encode decode funcName compute2 argReprs kwArgs
        ((md5hex s ++ npyExt, encode v) :: fs)
      = (.ok v, (md5hex s ++ npyExt, encode v) :: fs) := by
  constructor
  · simp [computeFuncCached, hs, hmiss]
  · simp [computeFuncCached, hs, List.lookup, hrt]

/-- Witness for C1 at the concrete call f(2) returning 5 on an empty
cache, with the identity codec; the second call's thunk is a failing one,
so its success shows compute is not invoked. -/
theorem claim_C1_witness :
    inputStr ("f".data) [Except.ok ("2".data)]
        ([] : List (List Char × Except Unit (List Char))) = .ok ("f(2,)".data)
    ∧ (fun b => (Except.ok b : Except Unit Nat)) ((id : Nat → Nat) 5) = .ok 5
    ∧ ([] : List (List Char × Nat)).lookup (md5hex ("f(2,)".data) ++ npyExt) = none
    ∧ (computeFuncCached (id : Nat → Nat) (fun b => (.ok b : Except Unit Nat))
          ("f".data) (.ok 5 : Except Unit Nat)
          [(Except.ok ("2".data) : Except Unit (List Char))] [] []
        = (.ok 5, [(md5hex ("f(2,)".data) ++ npyExt, 5)])
      ∧ computeFuncCached (id : Nat → Nat) (fun b => (.ok b : Except Unit Nat))
          ("f".data) (.error () : Except Unit Nat)
          [(Except.ok ("2".data) : Except Unit (List Char))] []
          [(md5hex ("f(2,)".data) ++ npyExt, 5)]
        = (.ok 5, [(md5hex ("f(2,)".data) ++ npyExt, 5)])) :=
  ⟨rfl, rfl, rfl,
    claim_C1_hit_equivalence (id : Nat → Nat) (fun b => (.ok b : Except Unit Nat))
      ("f".data) 5 [(Except.ok ("2".data) : Except Unit (List Char))] [] []
      ("f(2,)".data) (.error () : Except Unit Nat) rfl rfl rfl⟩

/-- Claim C2 counterexample. In the source, the invocation of the wrapped
function sits inside the same try block as the cache access, and the
handler at line 74 rewraps every exception as a RuntimeError; so on a
miss where the wrapped function raises, the caller receives the wrapping
RuntimeError, not the original error unchanged. Concretely: f(2) raising
a user error on an empty cache yields the wrapped error, not the raw
one. -/
theorem claim_C2_counterexample :
    computeFuncCached (id : Nat → Nat) (fun b => (.ok b : Except Unit Nat))
        ("f".data) (.error ()) [(Except.ok ("2".data) : Except Unit (List Char))] [] []
      = (.error (.runtimeExc (.userExc ())), ([] : List (List Char × Nat)))
    ∧ computeFuncCached (id : Nat → Nat) (fun b => (.ok b : Except Unit Nat))
        ("f".data) (.error ()) [(Except.ok ("2".data) : Except Unit (List Char))] [] []
      ≠ (.error (.userExc ()), ([] : List (List Char × Nat))) := by
  constructor
  · rfl
  · intro h
    rw [show computeFuncCached (id : Nat → Nat) (fun b => (.ok b : Except Unit Nat))
        ("f".data) (.error ()) [(Except.ok ("2".data) : Except Unit (List Char))] [] []
      = (.error (.runtimeExc (.userExc ())), ([] : List (List Char × Nat))) from rfl] at h
    simp at h

/-- Claim C2 as amended. If invoking the wrapped function on a cache miss
raises an error, that error surfaces to the caller wrapped in the
RuntimeError raised by the handler at line 74 (carrying the original
error as its cause), rather than propagating unchanged; and no cache
file is written for that key, the filesystem is untouched. -/
theorem claim_C2_compute_error_wrapped_no_write
    {Arr Bytes RErr UErr IOErr : Type}
    (encode : Arr → Bytes) (decode : Bytes → Except IOErr Arr)
    (funcName : List Char) (e : UErr)
    (argReprs : List (Except RErr (List Char)))
    (kwArgs : List (List Char × Except RErr (List Char)))
    (fs : List (List Char × Bytes)) (s : List Char)
    (hs : inputStr funcName argReprs kwArgs = .ok s)
    (hmiss : fs.lookup (md5hex s ++ npyExt) = none) :
    computeFuncCached encode decode funcName (.error e) argReprs kwArgs fs
      = (.error (.runtimeExc (.userExc e)), fs) := by
  simp [computeFuncCached, hs, hmiss]

/-- Witness for the amended C2 at the concrete failing call f(2) on an
empty cache. -/
theorem claim_C2_amended_witness :
    inputStr ("f".data) [Except.ok ("2".data)]
        ([] : List (List Char × Except Unit (List Char))) = .ok ("f(2,)".data)
    ∧ ([] : List (List Char × Nat)).lookup (md5hex ("f(2,)".data) ++ npyExt) = none
    ∧ computeFuncCached (id : Nat → Nat) (fun b => (.ok b : Except Unit Nat))
        ("f".data) (.error ()) [(Except.ok ("2".data) : Except Unit (List Char))] [] []
      = (.error (.runtimeExc (.userExc ())), []) :=
  ⟨rfl, rfl,
    claim_C2_compute_error_wrapped_no_write (id : Nat → Nat)
      (fun b => (.ok b : Except Unit Nat)) ("f".data) ()
      [(Except.ok ("2".data) : Except Unit (List Char))] [] [] ("f(2,)".data) rfl rfl⟩

/-- Claim C3. When the cache file for the derived key exists but decoding
it fails, the failure surfaces to the caller as the wrapping RuntimeError
(the spec's CacheError) carrying the underlying cause, for an arbitrary
compute thunk — so the read failure is never treated as a miss that
silently recomputes — and the filesystem is unchanged. -/
theorem claim_C3_read_failure_surfaced
    {Arr Bytes RErr UErr IOErr : Type}
    (encode : Arr → Bytes) (decode : Bytes → Except IOErr Arr)
    (funcName : List Char) (b : Bytes) (e : IOErr)
    (argReprs : List (Except RErr (List Char)))
    (kwArgs : List (List Char × Except RErr (List Char)))
    (fs : List (List Char × Bytes)) (s : List Char)
    (compute : Except UErr Arr)
    (hs : inputStr funcName argReprs kwArgs = .ok s)
    (hhit : fs.lookup (md5hex s ++ npyExt) = some b)
    (hdec : decode b = .error e) :
    computeFuncCached encode decode funcName compute argReprs kwArgs fs
      = (.error (.runtimeExc (.osExc e)), fs) := by
  simp [computeFuncCached, hs, hhit, hdec]

/-- Witness for C3: one existing cache entry whose decode fails; the
compute thunk would succeed with 7 but is never consulted. -/
theorem claim_C3_witness :
    inputStr ("f".data) [Except.ok ("2".data)]
        ([] : List (List Char × Except Unit (List Char))) = .ok ("f(2,)".data)
    ∧ [(md5hex ("f(2,)".data) ++ npyExt, 0)].lookup (md5hex ("f(2,)".data) ++ npyExt)
      = some 0
    ∧ (fun _ => (Except.error () : Except Unit Nat)) 0 = .error ()
    ∧ computeFuncCached (id : Nat → Nat) (fun _ => (.error () : Except Unit Nat))
        ("f".data) (.ok 7 : Except Unit Nat)
        [(Except.ok ("2".data) : Except Unit (List Char))] []
        [(md5hex ("f(2,)".data) ++ npyExt, 0)]
      = (.error (.runtimeExc (.osExc ())), [(md5hex ("f(2,)".data) ++ npyExt, 0)]) :=
  ⟨rfl, by simp [List.lookup], rfl,
    claim_C3_read_failure_surfaced (id : Nat → Nat)
      (fun _ => (.error () : Except Unit Nat)) ("f".data) 0 ()
      [Except.ok ("2".data)] [] [(md5hex ("f(2,)".data) ++ npyExt, 0)]
      ("f(2,)".data) (.ok 7 : Except Unit Nat) rfl (by simp [List.lookup]) rfl⟩

/-- Claim C4. When rendering some argument fails (its repr raises), the
failure surfaces to the caller as the rendering exception itself —
propagated from outside the try block, hence not wrapped in the
RuntimeError; this is the spec's KeyDerivationError — and it does so
before any filesystem I/O and before the wrapped function is invoked:
the outcome is the same for every filesystem and every compute thunk,
and the filesystem is returned untouched. -/
theorem claim_C4_key_derivation_error
    {Arr Bytes RErr UErr IOErr : Type}
    (encode : Arr → Bytes) (decode : Bytes → Except IOErr Arr)
    (funcName : List Char) (e : RErr)
    (argReprs : List (Except RErr (List Char)))
    (kwArgs : List (List Char × Except RErr (List Char)))
    (hre : inputStr funcName argReprs kwArgs = .error e) :
    ∀ (fs : List (List Char × Bytes)) (compute : Except UErr Arr),
      computeFuncCached encode decode funcName compute argReprs kwArgs fs
        = (.error (.reprExc e), fs) := by
  intro fs compute
  simp [computeFuncCached, hre]

/-- Witness for C4: a single positional argument whose repr raises; the
cache holds an (undecodable) entry and the compute thunk would succeed,
yet the rendering failure is what surfaces, unwrapped, with the
filesystem untouched. -/
theorem claim_C4_witness :
    inputStr ("f".data) [(Except.error () : Except Unit (List Char))] [] = .error ()
    ∧ computeFuncCached (id : Nat → Nat) (fun b => (.ok b : Except Unit Nat))
        ("f".data) (.ok 7 : Except Unit Nat) [(Except.error () : Except Unit (List Char))] []
        [(("x".data), 0)]
      = (.error (.reprExc ()), [(("x".data), 0)]) :=
  ⟨rfl,
    claim_C4_key_derivation_error (id : Nat → Nat)
      (fun b => (.ok b : Except Unit Nat)) ("f".data) ()
      [(Except.error () : Except Unit (List Char))] [] rfl
      [(("x".data), 0)] (.ok 7 : Except Unit Nat)⟩

/-- Claim C6. Key derivation is deterministic: when two calls observe the
same function name and the same (deterministic) textual renderings of
their positional and keyword arguments, the derived keys are identical;
and every derived digest has the fixed width of 32 hexadecimal
characters. -/
theorem claim_C6_key_determinism
    {RErr : Type}
    (n1 n2 : List Char)
    (a1 a2 : List (Except RErr (List Char)))
    (k1 k2 : List (List Char × Except RErr (List Char)))
    (hn : n1 = n2) (ha : a1 = a2) (hk : k1 = k2) :
    deriveKey n1 a1 k1 = deriveKey n2 a2 k2
    ∧ ∀ s : List Char, (md5hex s).length = 32 := by
  subst hn ha hk
  exact ⟨rfl, md5hex_length⟩

/-- Witness for C6 at the call f(2, x=3), rendered twice. -/
theorem claim_C6_witness :
    ("f".data) = ("f".data)
    ∧ [(Except.ok ("2".data) : Except Unit (List Char))]
      = [(Except.ok ("2".data) : Except Unit (List Char))]
    ∧ [(("x".data), (Except.ok ("3".data) : Except Unit (List Char)))]
      = [(("x".data), (Except.ok ("3".data) : Except Unit (List Char)))]
    ∧ deriveKey ("f".data) [(Except.ok ("2".data) : Except Unit (List Char))]
        [(("x".data), (Except.ok ("3".data) : Except Unit (List Char)))]
      = deriveKey ("f".data) [(Except.ok ("2".data) : Except Unit (List Char))]
        [(("x".data), (Except.ok ("3".data) : Except Unit (List Char)))]
    ∧ (md5hex ("f(2,x=3)".data)).length = 32 :=
  ⟨rfl, rfl, rfl,
    (claim_C6_key_determinism ("f".data) ("f".data)
      [(Except.ok ("2".data) : Except Unit (List Char))]
      [(Except.ok ("2".data) : Except Unit (List Char))]
      [(("x".data), (Except.ok ("3".data) : Except Unit (List Char)))]
      [(("x".data), (Except.ok ("3".data) : Except Unit (List Char)))]
      rfl rfl rfl).1,
    (claim_C6_key_determinism ("f".data) ("f".data)
      [(Except.ok ("2".data) : Except Unit (List Char))]
      [(Except.ok ("2".data) : Except Unit (List Char))]
      [(("x".data), (Except.ok ("3".data) : Except Unit (List Char)))]
      [(("x".data), (Except.ok ("3".data) : Except Unit (List Char)))]
      rfl rfl rfl).2 ("f(2,x=3)".data)⟩

/-- Claim C9 (implicit). Function identity in the cache key is only the
function's __name__: two functions with equal __name__ called on
arguments with the same renderings derive the identical key, so after
the first function's wrapper persists its result `v`, a call through the
second function's wrapper — whose own invocation would yield an
arbitrary, possibly different `w` — hits that file and silently returns
`v`. -/
theorem claim_C9_cross_function_hit
    {Arr Bytes RErr UErr IOErr : Type}
    (encode : Arr → Bytes) (decode : Bytes → Except IOErr Arr)
    (funcName : List Char) (v w : Arr)
    (argReprs : List (Except RErr (List Char)))
    (kwArgs : List (List Char × Except RErr (List Char)))
    (fs : List (List Char × Bytes)) (s : List Char)
    (hs : inputStr funcName argReprs kwArgs = .ok s)
    (hrt : decode (encode v) = .ok v)
    (hmiss : fs.lookup (md5hex s ++ npyExt) = none) :
    deriveKey funcName argReprs kwArgs = deriveKey funcName argReprs kwArgs
    ∧ computeFuncCached encode decode funcName (.ok v : Except UErr Arr)
        argReprs kwArgs fs
      = (.ok v, (md5hex s ++ npyExt, encode v) :: fs)
    ∧ computeFuncCached encode decode funcName (.ok w : Except UErr Arr)
        argReprs kwArgs ((md5hex s ++ npyExt, encode v) :: fs)
      = (.ok v, (md5hex s ++ npyExt, encode v) :: fs) := by
  refine ⟨rfl, ?_, ?_⟩
  · simp [computeFuncCached, hs, hmiss]
  · simp [computeFuncCached, hs, List.lookup, hrt]

/-- Witness for C9: function g shares __name__ f with the earlier writer;
g would compute 999 but its wrapper returns the persisted 5. -/
theorem claim_C9_witness :
    (5 : Nat) ≠ 999
    ∧ computeFuncCached (id : Nat → Nat) (fun b => (.ok b : Except Unit Nat))
        ("f".data) (.ok 5 : Except Unit Nat)
        [(Except.ok ("2".data) : Except Unit (List Char))] [] []
      = (.ok 5, [(md5hex ("f(2,)".data) ++ npyExt, 5)])
    ∧ computeFuncCached (id : Nat → Nat) (fun b => (.ok b : Except Unit Nat))
        ("f".data) (.ok 999 : Except Unit Nat)
        [(Except.ok ("2".data) : Except Unit (List Char))] []
        [(md5hex ("f(2,)".data) ++ npyExt, 5)]
      = (.ok 5, [(md5hex ("f(2,)".data) ++ npyExt, 5)]) :=
  ⟨by decide,
    (claim_C9_cross_function_hit (id : Nat → Nat)
      (fun b => (.ok b : Except Unit Nat)) ("f".data) 5 999
      [(Except.ok ("2".data) : Except Unit (List Char))] [] []
      ("f(2,)".data) rfl rfl rfl).2.1,
    (claim_C9_cross_function_hit (id : Nat → Nat)
      (fun b => (.ok b : Except Unit Nat)) ("f".data) 5 999
      [(Except.ok ("2".data) : Except Unit (List Char))] [] []
      ("f(2,)".data) rfl rfl rfl).2.2⟩

/-! ## Claims about cache clearing -/

/-- Claim C7 counterexample. The claim is not true of every store: when
the root directory contains a subdirectory, clear with remove_dir=False
completes without error yet leaves the root non-empty, because the
deletion loop only removes regular files. -/
theorem claim_C7_counterexample :
    (clearCache [Entry.dir ("sub".data) [("x.npy".data)]] false).raised = none
    ∧ (clearCache [Entry.dir ("sub".data) [("x.npy".data)]] false).root
      = some [Entry.dir ("sub".data) [("x.npy".data)]]
    ∧ (clearCache [Entry.dir ("sub".data) [("x.npy".data)]] false).root
      ≠ some [] := by
  refine ⟨rfl, rfl, ?_⟩
  intro h
  simp [clearCache, Entry.survives, List.filter] at h

/-- Claim C7 as amended. Provided every entry directly under the root is
a regular file whose deletion succeeds: after clear with
remove_dir=False the root directory still exists and is empty, and after
clear with remove_dir=True the root directory no longer exists (in both
cases with no error raised and no deletion failure reported). -/
theorem claim_C7_clear_semantics
    (entries : List Entry)
    (h : ∀ e ∈ entries, ∃ n, e = Entry.file n true) :
    clearCache entries false = ⟨[], none, some []⟩
    ∧ clearCache entries true = ⟨[], none, none⟩ := by
  have hsurv : entries.filter Entry.survives = [] := by
    rw [List.filter_eq_nil_iff]
    intro e he
    obtain ⟨n, rfl⟩ := h e he
    simp [Entry.survives]
  have hfail : entries.filter Entry.removalFails = [] := by
    rw [List.filter_eq_nil_iff]
    intro e he
    obtain ⟨n, rfl⟩ := h e he
    simp [Entry.removalFails]
  constructor
  · simp [clearCache, hsurv, hfail]
  · simp [clearCache, hsurv, hfail]

/-- Witness for the amended C7: a root holding two deletable cache
files. -/
theorem claim_C7_witness :
    clearCache [Entry.file ("a.npy".data) true, Entry.file ("b.npy".data) true]
        false = ⟨[], none, some []⟩
    ∧ clearCache [Entry.file ("a.npy".data) true, Entry.file ("b.npy".data) true]
        true = ⟨[], none, none⟩ :=
  claim_C7_clear_semantics
    [Entry.file ("a.npy".data) true, Entry.file ("b.npy".data) true]
    (fun e he => by
      simp only [List.mem_cons, List.not_mem_nil, or_false] at he
      rcases he with rfl | rfl
      · exact ⟨("a.npy".data), rfl⟩
      · exact ⟨("b.npy".data), rfl⟩)

/-- Claim C8. Bulk clear is best-effort over entries: every regular file
whose deletion fails is reported (printed), yet every other deletable
file is still deleted — the final directory contents are exactly the
surviving entries regardless of how many deletions failed — and the only
exception clear can raise is the wrapped failure of the optional final
directory removal: with remove_dir=False nothing is raised, and whenever
something is raised, remove_dir was True and the exception is the
RuntimeError wrapping the rmdir failure. -/
theorem claim_C8_best_effort_clear (entries : List Entry) (removeDir : Bool) :
    (clearCache entries removeDir).reported = entries.filter Entry.removalFails
    ∧ (removeDir = false →
        clearCache entries false
          = ⟨entries.filter Entry.removalFails, none,
             some (entries.filter Entry.survives)⟩)
    ∧ ((clearCache entries removeDir).raised ≠ none →
        removeDir = true
        ∧ (clearCache entries removeDir).raised = some .rmdirRuntimeError
        ∧ (clearCache entries removeDir).root
          = some (entries.filter Entry.survives)) := by
  unfold clearCache
  rcases removeDir with _ | _
  · simp
  · by_cases hrem : entries.filter Entry.survives = [] <;> simp [hrem]

/-- Witness for C8: one undeletable file, one deletable file and
remove_dir=True: the failure on the first file is reported, the second
file is still deleted, and the raised error is the wrapped rmdir
failure. -/
theorem claim_C8_witness :
    (clearCache [Entry.file ("a".data) false, Entry.file ("b".data) true]
        true).reported = [Entry.file ("a".data) false]
    ∧ (clearCache [Entry.file ("a".data) false, Entry.file ("b".data) true]
        true).raised = some .rmdirRuntimeError
    ∧ (clearCache [Entry.file ("a".data) false, Entry.file ("b".data) true]
        true).root = some [Entry.file ("a".data) false] :=
  ⟨((claim_C8_best_effort_clear
      [Entry.file ("a".data) false, Entry.file ("b".data) true] true).1).trans
    (by decide),
   ((claim_C8_best_effort_clear
      [Entry.file ("a".data) false, Entry.file ("b".data) true] true).2.2
      (by decide)).2.1,
   (((claim_C8_best_effort_clear
      [Entry.file ("a".data) false, Entry.file ("b".data) true] true).2.2
      (by decide)).2.2).trans (by decide)⟩

/-- Claim C10 (implicit). Clear with remove_dir=False deletes only
regular files directly under the root: it raises no error, the remaining
contents are exactly the surviving entries, every subdirectory (with its
contents) is still present, every entry that disappeared was a regular
file whose deletion succeeded, and if the root contained any
subdirectory the root is not empty afterwards. -/
theorem claim_C10_frame_subdirs (entries : List Entry) :
    (clearCache entries false).raised = none
    ∧ (clearCache entries false).root = some (entries.filter Entry.survives)
    ∧ (∀ n c, Entry.dir n c ∈ entries →
        Entry.dir n c ∈ entries.filter Entry.survives)
    ∧ (∀ e ∈ entries, e ∉ entries.filter Entry.survives →
        ∃ n, e = Entry.file n true)
    ∧ (∀ n c, Entry.dir n c ∈ entries →
        (clearCache entries false).root ≠ some []) := by
  refine ⟨rfl, rfl, ?_, ?_, ?_⟩
  · intro n c hmem
    exact List.mem_filter.mpr ⟨hmem, rfl⟩
  · intro e hmem hnot
    cases e with
    | file n removable =>
      cases removable with
      | true => exact ⟨n, rfl⟩
      | false =>
        exact absurd (List.mem_filter.mpr ⟨hmem, rfl⟩) hnot
    | dir n c =>
      exact absurd (List.mem_filter.mpr ⟨hmem, rfl⟩) hnot
  · intro n c hmem
    have hin : Entry.dir n c ∈ entries.filter Entry.survives :=
      List.mem_filter.mpr ⟨hmem, rfl⟩
    have hne : entries.filter Entry.survives ≠ [] := List.ne_nil_of_mem hin
    simp only [clearCache]
    intro h
    exact hne (by injection h)

/-- Witness for C10: a root with one subdirectory and one deletable file;
the file goes, the subdirectory (with contents) stays, nothing is
raised, and the root is not empty. -/
theorem claim_C10_witness :
    (clearCache [Entry.dir ("s".data) [("x".data)], Entry.file ("a".data) true]
        false).raised = none
    ∧ (clearCache [Entry.dir ("s".data) [("x".data)], Entry.file ("a".data) true]
        false).root = some [Entry.dir ("s".data) [("x".data)]]
    ∧ Entry.dir ("s".data) [("x".data)]
      ∈ [Entry.dir ("s".data) [("x".data)], Entry.file ("a".data) true].filter
          Entry.survives
    ∧ (clearCache [Entry.dir ("s".data) [("x".data)], Entry.file ("a".data) true]
        false).root ≠ some [] :=
  ⟨(claim_C10_frame_subdirs
      [Entry.dir ("s".data) [("x".data)], Entry.file ("a".data) true]).1,
   ((claim_C10_frame_subdirs
      [Entry.dir ("s".data) [("x".data)], Entry.file ("a".data) true]).2.1).trans
    (by decide),
   (claim_C10_frame_subdirs
      [Entry.dir ("s".data) [("x".data)], Entry.file ("a".data) true]).2.2.1
    ("s".data) [("x".data)] (by decide),
   (claim_C10_frame_subdirs
      [Entry.dir ("s".data) [("x".data)], Entry.file ("a".data) true]).2.2.2.2
    ("s".data) [("x".data)] (by decide)⟩

/-! ## Claim C5: keyword order is part of the canonical string -/

lemma keyEq_head_ne :
    ∀ (k1 k2 w1 w2 : List Char), k1 ≠ k2 → '=' ∉ k1 → '=' ∉ k2 →
      k1 ++ '=' :: w1 ≠ k2 ++ '=' :: w2 := by
  intro k1
  induction k1 with
  | nil =>
    intro k2 w1 w2 hne _ h2 h
    cases k2 with
    | nil => exact hne rfl
    | cons b t =>
      rw [List.nil_append, List.cons_append] at h
      injection h with hb _
      apply h2
      rw [hb]
      exact List.mem_cons_self b t
  | cons a t1 ih =>
    intro k2 w1 w2 hne h1 h2 h
    cases k2 with
    | nil =>
      rw [List.cons_append, List.nil_append] at h
      injection h with ha _
      apply h1
      rw [← ha]
      exact List.mem_cons_self a t1
    | cons b t2 =>
      rw [List.cons_append, List.cons_append] at h
      injection h with hab hrest
      subst hab
      have hne' : t1 ≠ t2 := fun hh => hne (by rw [hh])
      exact ih t2 w1 w2 hne' (fun hm => h1 (List.mem_cons_of_mem a hm))
        (fun hm => h2 (List.mem_cons_of_mem a hm)) hrest

lemma nodup_keys_val_unique :
    ∀ (l : List (List Char × List Char)) (k v1 v2 : List Char),
      (l.map Prod.fst).Nodup → (k, v1) ∈ l → (k, v2) ∈ l → v1 = v2 := by
  intro l
  induction l with
  | nil => intro k v1 v2 _ h; cases h
  | cons p t ih =>
    intro k v1 v2 hnd h1 h2
    rw [List.map_cons, List.nodup_cons] at hnd
    rcases List.mem_cons.mp h1 with he1 | ht1
    · rcases List.mem_cons.mp h2 with he2 | ht2
      · have : (k, v1) = (k, v2) := he1.trans he2.symm
        injection this with _ hv
      · exfalso
        apply hnd.1
        have hk2 : k ∈ List.map Prod.fst t := by
          simpa using List.mem_map_of_mem Prod.fst ht2
        rw [← he1]
        exact hk2
    · rcases List.mem_cons.mp h2 with he2 | ht2
      · exfalso
        apply hnd.1
        have hk1 : k ∈ List.map Prod.fst t := by
          simpa using List.mem_map_of_mem Prod.fst ht1
        rw [← he2]
        exact hk1
      · exact ih k v1 v2 hnd.2 ht1 ht2

lemma renderKw_joined_ne :
    ∀ (kw1 kw2 : List (List Char × List Char)),
      (kw1.map Prod.fst).Nodup →
      kw2.Perm kw1 →
      kw1 ≠ kw2 →
      (∀ k ∈ kw1.map Prod.fst, '=' ∉ k) →
      joinComma (kw1.map fun p => renderKwPair p.1 p.2)
        ≠ joinComma (kw2.map fun p => renderKwPair p.1 p.2) := by
  intro kw1
  induction kw1 with
  | nil =>
    intro kw2 _ hperm hne _
    exact absurd hperm.eq_nil.symm hne
  | cons p t1 ih =>
    intro kw2 hnd hperm hne heq
    obtain ⟨k1, v1⟩ := p
    cases kw2 with
    | nil =>
      have hlen := hperm.length_eq
      simp at hlen
    | cons q t2 =>
      obtain ⟨k2, v2⟩ := q
      by_cases hk : k1 = k2
      · subst hk
        have hv : v1 = v2 := by
          have h0 : (k1, v2) ∈ (k1, v2) :: t2 := List.mem_cons_self _ _
          have hmem2 := hperm.subset h0
          exact nodup_keys_val_unique ((k1, v1) :: t1) k1 v1 v2 hnd
            (List.mem_cons_self _ _) hmem2
        subst hv
        have hperm' : t2.Perm t1 := hperm.cons_inv
        have hne' : t1 ≠ t2 := fun hh => hne (by rw [hh])
        have hnd' : (t1.map Prod.fst).Nodup := by
          rw [List.map_cons, List.nodup_cons] at hnd
          exact hnd.2
        have heq' : ∀ k ∈ t1.map Prod.fst, '=' ∉ k := by
          intro k hkmem
          exact heq k (by rw [List.map_cons]; exact List.mem_cons_of_mem _ hkmem)
        have hj := ih t2 hnd' hperm' hne' heq'
        simp only [List.map_cons]
        rw [joinComma_cons, joinComma_cons]
        intro hh
        have hct := List.append_cancel_left hh
        have hlen := hperm'.length_eq
        cases t1 with
        | nil =>
          cases t2 with
          | nil => exact hne' rfl
          | cons b bs => simp at hlen
        | cons a as =>
          cases t2 with
          | nil => simp at hlen
          | cons b bs =>
            simp only [List.map_cons, commaTail] at hct
            injection hct with _ hjj
            apply hj
            simp only [List.map_cons]
            exact hjj
      · have h1 : '=' ∉ k1 := heq k1 (by rw [List.map_cons]; exact List.mem_cons_self _ _)
        have h2 : '=' ∉ k2 := by
          apply heq k2
          have h0 : (k2, v2) ∈ (k2, v2) :: t2 := List.mem_cons_self _ _
          have hmem := hperm.subset h0
          exact List.mem_map_of_mem Prod.fst hmem
        simp only [List.map_cons]
        rw [joinComma_kwPair_cons, joinComma_kwPair_cons]
        exact keyEq_head_ne k1 k2 _ _ hk h1 h2

lemma renderArgs_ok {RErr : Type} (args : List (List Char)) :
    renderArgs (args.map (Except.ok : List Char → Except RErr (List Char)))
      = .ok args := by
  induction args with
  | nil => rfl
  | cons a t ih => simp [renderArgs, ih]

lemma renderKwArgs_ok {RErr : Type} (kw : List (List Char × List Char)) :
    renderKwArgs
        (kw.map fun p => (p.1, (Except.ok p.2 : Except RErr (List Char))))
      = .ok (kw.map fun p => renderKwPair p.1 p.2) := by
  induction kw with
  | nil => rfl
  | cons p t ih => simp [renderKwArgs, ih]

lemma inputStr_pure {RErr : Type} (n : List Char) (args : List (List Char))
    (kw : List (List Char × List Char)) :
    inputStr n (args.map (Except.ok : List Char → Except RErr (List Char)))
        (kw.map fun p => (p.1, Except.ok p.2))
      = .ok (inputStrPure n args kw) := by
  simp [inputStr, renderArgs_ok, renderKwArgs_ok, inputStrPure]

/-- Claim C5. For every function identity and keyword-argument list with
distinct names free of the equals sign, supplying the same keyword
arguments in a different insertion order yields a different canonical
string — the canonical string preserves caller-supplied keyword order
and is not sorted — and hence, absent an MD5 collision between the two
canonical strings, a different cache key. -/
theorem claim_C5_kwarg_order_changes_key
    {RErr : Type}
    (funcName : List Char) (args : List (List Char))
    (kw1 kw2 : List (List Char × List Char))
    (hnd : (kw1.map Prod.fst).Nodup)
    (hperm : kw2.Perm kw1)
    (hne : kw1 ≠ kw2)
    (heq : ∀ k ∈ kw1.map Prod.fst, '=' ∉ k) :
    inputStrPure funcName args kw1 ≠ inputStrPure funcName args kw2
    ∧ ((md5hex (inputStrPure funcName args kw1)
          = md5hex (inputStrPure funcName args kw2)
        → inputStrPure funcName args kw1 = inputStrPure funcName args kw2)
      → deriveKey funcName
            (args.map (Except.ok : List Char → Except RErr (List Char)))
            (kw1.map fun p => (p.1, Except.ok p.2))
          ≠ deriveKey funcName
            (args.map (Except.ok : List Char → Except RErr (List Char)))
            (kw2.map fun p => (p.1, Except.ok p.2))) := by
  have hstr : inputStrPure funcName args kw1 ≠ inputStrPure funcName args kw2 := by
    intro h
    unfold inputStrPure at h
    have h1 := List.append_cancel_left h
    injection h1 with _ h2
    have h3 := List.append_cancel_left h2
    injection h3 with _ h4
    have h5 := List.append_cancel_right h4
    exact renderKw_joined_ne kw1 kw2 hnd hperm hne heq h5
  refine ⟨hstr, ?_⟩
  intro hinj hkey
  rw [deriveKey, deriveKey, inputStr_pure, inputStr_pure] at hkey
  simp only [Except.map] at hkey
  injection hkey with hmd5
  exact hstr (hinj hmd5)

/-- Witness for C5 at the call f(a=1, b=2) versus f(b=2, a=1): the
canonical strings differ, their MD5 digests (computed concretely) differ,
and hence the derived keys differ. -/
theorem claim_C5_witness :
    inputStrPure ("f".data) []
        [(("a".data), ("1".data)), (("b".data), ("2".data))]
      ≠ inputStrPure ("f".data) []
        [(("b".data), ("2".data)), (("a".data), ("1".data))]
    ∧ md5hex (inputStrPure ("f".data) []
        [(("a".data), ("1".data)), (("b".data), ("2".data))])
      ≠ md5hex (inputStrPure ("f".data) []
        [(("b".data), ("2".data)), (("a".data), ("1".data))])
    ∧ deriveKey ("f".data) ([] : List (Except Unit (List Char)))
        [(("a".data), Except.ok ("1".data)), (("b".data), Except.ok ("2".data))]
      ≠ deriveKey ("f".data) ([] : List (Except Unit (List Char)))
        [(("b".data), Except.ok ("2".data)), (("a".data), Except.ok ("1".data))] :=
  ⟨(@claim_C5_kwarg_order_changes_key Unit ("f".data) []
      [(("a".data), ("1".data)), (("b".data), ("2".data))]
      [(("b".data), ("2".data)), (("a".data), ("1".data))]
      (by decide) (by decide) (by decide) (by decide)).1,
   by set_option maxRecDepth 16384 in decide,
   (@claim_C5_kwarg_order_changes_key Unit ("f".data) []
      [(("a".data), ("1".data)), (("b".data), ("2".data))]
      [(("b".data), ("2".data)), (("a".data), ("1".data))]
      (by decide) (by decide) (by decide) (by decide)).2
     (fun h => absurd h (by set_option maxRecDepth 16384 in decide))⟩

end NumpyFuncCache
